import Mathlib

/-!
Verification of the data-wrangling core of the `uk-covid19-dashboard`
notebook (`src/Dashboard.ipynb`).

The notebook's computational core is

* `parse_date(datestring)` — `pd.to_datetime(datestring, format="%Y-%m-%d")`;
* `wrangle_data(rawdata)` — sorts the record date strings, builds a daily
  `pd.date_range` from the first to the last sorted date, fills a four-column
  frame first-write-wins per cell (`None` coerced to `0.0`), then
  `fillna(0.0)`;
* `api_button_callback(button)` — fetches API data, and either replaces the
  global dataframe and redraws, or flags an error state on the button.

This file is a shallow embedding of that code.  Dates are modelled by a
`Date` structure together with `dayNumber`, a linear day count in the
proleptic Gregorian calendar (arbitrary epoch offset; only differences and
order matter), so that `pd.date_range(start, end, freq='D')` becomes the
list of consecutive day numbers.  Python exceptions become `Except` values.
Numeric cell payloads are modelled as `ℚ` (no arithmetic is ever performed
on them; `float(...)` is the identity on the payload).  `NaN` cells of the
frame under construction are modelled by `Option` (`none` = `NaN`), matching
`pd.isna`.
-/

/-! ### Calendar arithmetic (the part of pandas Timestamp / date_range the code relies on) -/

/-- Gregorian leap-year rule, as used by `pd.to_datetime` date validation. -/
def isLeapYear (y : Nat) : Bool :=
  (y % 4 == 0 && y % 100 != 0) || (y % 400 == 0)

/-- Number of days of month `m` (1–12) in year `y`; `0` outside 1–12. -/
def daysInMonth (y m : Nat) : Nat :=
  if m = 2 then (if isLeapYear y then 29 else 28)
  else if m = 4 ∨ m = 6 ∨ m = 9 ∨ m = 11 then 30
  else if 1 ≤ m ∧ m ≤ 12 then 31
  else 0

/-- Number of days in year `y`. -/
def daysInYear (y : Nat) : Nat := if isLeapYear y then 366 else 365

/-- Number of leap years strictly below `y` (year numbering from 0; year 0
counts as leap, a constant offset that cancels in all differences). -/
def countLeapBefore (y : Nat) : Nat :=
  (y + 3) / 4 - (y + 99) / 100 + (y + 399) / 400

/-- Days in all years before `y`, in closed form so that concrete dates
evaluate cheaply (year numbering from 0; only differences matter). -/
def daysBeforeYear (y : Nat) : Nat := 365 * y + countLeapBefore y

/-- Days in the months of year `y` strictly before month `m`
(months numbered from 1; the vacuous month 0 contributes 0 days). -/
def monthOffset (y : Nat) : Nat → Nat
  | 0 => 0
  | m + 1 => monthOffset y m + daysInMonth y m

/-- A calendar date as produced by `pd.to_datetime(·, format="%Y-%m-%d")`. -/
structure Date where
  year : Nat
  month : Nat
  day : Nat
deriving DecidableEq

/-- Linear day count of a date (days since an arbitrary fixed epoch, up to a
constant offset).  `pd.date_range(a, b, freq='D')` is the list of consecutive
day numbers from `dayNumber a` to `dayNumber b`. -/
def dayNumber (d : Date) : Nat :=
  daysBeforeYear d.year + monthOffset d.year d.month + d.day

/-! ### Date-string parsing: `parse_date` -/

/-- Decimal digit test on a character (code points 48–57). -/
def isDigitChar (c : Char) : Bool := 48 ≤ c.toNat && c.toNat ≤ 57

/-- Numeric value of a decimal digit character. -/
def digitVal (c : Char) : Nat := c.toNat - 48

/-- Parse a canonical ISO `YYYY-MM-DD` character list into a `Date`,
validating the month (1–12) and the day against the month length, as
`pd.to_datetime(·, format="%Y-%m-%d")` does (`strptime` rejects year 0).
The lenient `strptime` acceptance of non-zero-padded fields and the
`pd.Timestamp` year bounds (≈1677–2262) are not modelled; the notebook's
data format uses canonical zero-padded ISO dates. -/
def parseDateChars : List Char → Option Date
  | [y1, y2, y3, y4, h1, m1, m2, h2, d1, d2] =>
    if isDigitChar y1 && isDigitChar y2 && isDigitChar y3 && isDigitChar y4 &&
       h1 == '-' && isDigitChar m1 && isDigitChar m2 && h2 == '-' &&
       isDigitChar d1 && isDigitChar d2 then
      let y := 1000 * digitVal y1 + 100 * digitVal y2 + 10 * digitVal y3 + digitVal y4
      let m := 10 * digitVal m1 + digitVal m2
      let d := 10 * digitVal d1 + digitVal d2
      if 1 ≤ y ∧ 1 ≤ m ∧ m ≤ 12 ∧ 1 ≤ d ∧ d ≤ daysInMonth y m then
        some ⟨y, m, d⟩
      else none
    else none
  | _ => none

/-- Model of the notebook's `parse_date`: convert a date string to a date.
`none` models the `ValueError` raised by `pd.to_datetime` on a malformed
string. -/
def parse_date (s : String) : Option Date := parseDateChars s.data

/-! ### Python string comparison and `list.sort()` -/

/-- Lexicographic comparison of character lists by code point: the `≤` that
Python string sorting (`dates.sort()`) uses. -/
def charListLe : List Char → List Char → Bool
  | [], _ => true
  | _ :: _, [] => false
  | a :: as, b :: bs =>
    if a.toNat < b.toNat then true
    else if b.toNat < a.toNat then false
    else charListLe as bs

/-- Python's `s <= t` on strings, as a proposition. -/
def strLeProp (s t : String) : Prop := charListLe s.data t.data = true

instance : DecidableRel strLeProp := fun s t =>
  inferInstanceAs (Decidable (charListLe s.data t.data = true))

/-- Model of Python's in-place ascending `dates.sort()` (a stable sort by
`strLeProp`; only the head and last element of the result are consumed). -/
def sortStrings (l : List String) : List String := List.insertionSort strLeProp l

/-! ### Records, the dataframe, and `wrangle_data` -/

/-- One element of `rawdata['data']`: a JSON object with a date string and
the four numeric fields, each a number or `null` (`none`). -/
structure Record where
  date : String
  beds : Option ℚ
  cases : Option ℚ
  firstDose : Option ℚ
  secondDose : Option ℚ
deriving DecidableEq

/-- The JSON object passed to `wrangle_data`: `rawdata['data']` is the record
list. -/
structure RawData where
  data : List Record
deriving DecidableEq

/-- The four dataframe columns. -/
inductive Col
  | beds
  | cases
  | firstDose
  | secondDose
deriving DecidableEq

/-- Column access `entry[column]` on a record. -/
def Record.get (r : Record) : Col → Option ℚ
  | .beds => r.beds
  | .cases => r.cases
  | .firstDose => r.firstDose
  | .secondDose => r.secondDose

/-- One dataframe row: four cells, each `NaN` (`none`) or a number. -/
structure RowN where
  beds : Option ℚ
  cases : Option ℚ
  firstDose : Option ℚ
  secondDose : Option ℚ
deriving DecidableEq

/-- Cell read `df.loc[date, column]` within a row. -/
def RowN.get (r : RowN) : Col → Option ℚ
  | .beds => r.beds
  | .cases => r.cases
  | .firstDose => r.firstDose
  | .secondDose => r.secondDose

/-- Cell write within a row. -/
def RowN.set (r : RowN) : Col → Option ℚ → RowN
  | .beds, v => { r with beds := v }
  | .cases, v => { r with cases := v }
  | .firstDose, v => { r with firstDose := v }
  | .secondDose, v => { r with secondDose := v }

/-- The dataframe: rows keyed by the day number of their date index. -/
abbrev Table := List (Nat × RowN)

/-- A freshly allocated row: all four cells `NaN`. -/
def emptyRowN : RowN := ⟨none, none, none, none⟩

/-- Python exceptions escaping the notebook's functions.  `emptyInput` is the
`IndexError` raised by `dates[0]` on an empty record list; `parseError` is
the `ValueError` raised by `pd.to_datetime` on a malformed date string;
`keyError` is the `KeyError` raised by `df.loc[d, c]` when `d` is not in the
frame's index. -/
inductive WrangleError
  | emptyInput
  | parseError
  | keyError
deriving DecidableEq

/-- Row lookup by index label, `df.loc[i, ·]`. -/
def tableLookup (df : Table) (i : Nat) : Option RowN :=
  (df.find? (fun p => p.1 == i)).map Prod.snd

/-- Cell write `df.loc[i, c] = v` (the index labels of the frame are distinct,
so at most one row matches). -/
def tableSet (df : Table) (i : Nat) (c : Col) (v : ℚ) : Table :=
  df.map (fun p => if p.1 == i then (p.1, p.2.set c (some v)) else p)

/-- One iteration of the inner column loop of `wrangle_data`: look the cell
up (raising `KeyError` if the label is missing from the index), and if it is
still `NaN` write the record's value for that column, coercing `None` to
`0.0`. -/
def applyCol (entry : Record) (i : Nat) (df : Table) (c : Col) :
    Except WrangleError Table :=
  match tableLookup df i with
  | none => .error .keyError
  | some row =>
    match row.get c with
    | some _ => .ok df
    | none => .ok (tableSet df i c ((entry.get c).getD 0))

/-- One iteration of the outer record loop of `wrangle_data`: parse the
record's date, then run the column loop over the four columns in order. -/
def applyEntry (df : Table) (entry : Record) : Except WrangleError Table :=
  match parse_date entry.date with
  | none => .error .parseError
  | some dt =>
    (applyCol entry (dayNumber dt) df .beds).bind fun df1 =>
    (applyCol entry (dayNumber dt) df1 .cases).bind fun df2 =>
    (applyCol entry (dayNumber dt) df2 .firstDose).bind fun df3 =>
    applyCol entry (dayNumber dt) df3 .secondDose

/-- The record loop `for entry in datalist: ...` of `wrangle_data`; the first
exception aborts the loop and propagates. -/
def applyEntries (df : Table) : List Record → Except WrangleError Table
  | [] => .ok df
  | e :: l =>
    match applyEntry df e with
    | .error err => .error err
    | .ok df1 => applyEntries df1 l

/-- Day numbers of `pd.date_range(s, e, freq='D')`: every day from `s` to `e`
inclusive (empty when `e < s`). -/
def dateRange (s e : Nat) : List Nat :=
  (List.range (e + 1 - s)).map (fun k => s + k)

/-- The frame `pd.DataFrame(index=index, columns=[...])`: one all-`NaN` row
per day of the range. -/
def initTable (s e : Nat) : Table :=
  (dateRange s e).map (fun i => (i, emptyRowN))

/-- Effect of `df.fillna(0.0)` on one row. -/
def fillRow (r : RowN) : RowN :=
  ⟨some (r.beds.getD 0), some (r.cases.getD 0),
   some (r.firstDose.getD 0), some (r.secondDose.getD 0)⟩

/-- The `df.fillna(0.0, inplace=True)` pass of `wrangle_data`. -/
def fillna (df : Table) : Table := df.map (fun p => (p.1, fillRow p.2))

/-- Model of the notebook's `wrangle_data`:

* collect and sort the date strings (`dates.sort()`);
* `dates[0]` on an empty list raises `IndexError` (`emptyInput`);
* parse the first and last sorted date (a `ValueError` propagates);
* allocate one `NaN` row per day of `pd.date_range(startdate, enddate)`;
* run the record loop (first-write-wins per cell, `None` coerced to `0.0`);
* `fillna(0.0)` and return the frame. -/
def wrangle_data (rawdata : RawData) : Except WrangleError Table :=
  match sortStrings (rawdata.data.map Record.date) with
  | [] => .error .emptyInput
  | first :: rest =>
    match parse_date first,
          parse_date ((first :: rest).getLast (List.cons_ne_nil first rest)) with
    | none, _ => .error .parseError
    | some _, none => .error .parseError
    | some startdate, some enddate =>
      match applyEntries (initTable (dayNumber startdate) (dayNumber enddate))
              rawdata.data with
      | .error err => .error err
      | .ok df => .ok (fillna df)

/-! ### The refresh trigger: `api_button_callback` -/

/-- The mutable traits of the sync button that the callback touches.
Widget-library trait validation is not modelled; the traits are plain
fields. -/
structure BtnState where
  icon : String
  description : String
  tooltip : String
  style : String
  disabled : Bool
deriving DecidableEq

/-- The notebook state the callback can mutate: the global dataframe `df`
and the button. -/
structure DashboardState where
  df : Table
  button : BtnState
deriving DecidableEq

/-- Result of one callback invocation: the final state, whether
`refresh_graph()` ran, and the exception escaping the callback, if any. -/
structure CallbackResult where
  state : DashboardState
  refreshedGraph : Bool
  exn : Option WrangleError
deriving DecidableEq

/-- The `apibutton` widget as constructed in the notebook. -/
def apibutton : BtnState :=
  { icon := "cloud-download", description := "Sync data",
    tooltip := "Sync latest data from PHE", style := "", disabled := false }

/-- Model of `api_button_callback`.  `apidata` is the JSON object returned by
`access_api()`: `none` models an empty JSON object (`len(apidata) == 0`),
`some raw` a JSON object containing the `data` key (so `len(apidata) > 0`).
In the sync branch the button is mutated to its success state before
`wrangle_data` runs; if `wrangle_data` raises, `df` is left unchanged,
`refresh_graph()` is never reached, and the exception escapes the
callback. -/
def api_button_callback (apidata : Option RawData) (s : DashboardState) :
    CallbackResult :=
  match apidata with
  | some raw =>
    let b1 : BtnState :=
      { s.button with icon := "check-circle", description := "Synced",
                      disabled := true }
    match wrangle_data raw with
    | .ok newdf =>
      { state := { df := newdf, button := b1 }, refreshedGraph := true,
        exn := none }
    | .error e =>
      { state := { df := s.df, button := b1 }, refreshedGraph := false,
        exn := some e }
  | none =>
    { state :=
        { df := s.df,
          button :=
            { s.button with icon := "exclamation-circle",
                            description := "Error", style := "warning",
                            tooltip :=
                              "Could not sync latest data, falling back to current data",
                            disabled := true } },
      refreshedGraph := false, exn := none }

/-! ### Derived notions used by the theorems -/

/-- Validity bounds guaranteed for every date produced by `parseDateChars`. -/
def Date.Valid (a : Date) : Prop :=
  1 ≤ a.year ∧ 1 ≤ a.month ∧ a.month ≤ 12 ∧ 1 ≤ a.day ∧
    a.day ≤ daysInMonth a.year a.month

/-- Numeric key of a date: its digits `YYYYMMDD` read as one number.  For
canonical ISO strings, lexicographic string order is exactly key order. -/
def dateKey (a : Date) : Nat := 10000 * a.year + 100 * a.month + a.day

/-- Day number of a record's date, when the date parses. -/
def recDay (r : Record) : Option Nat := (parse_date r.date).map dayNumber

/-- Cell `(i, c)` of the frame (`none` when the cell is `NaN`; also `none`
when label `i` is absent — the theorems only use it on present labels). -/
def cellD (df : Table) (i : Nat) (c : Col) : Option ℚ :=
  match tableLookup df i with
  | some row => row.get c
  | none => none

/-- Left-biased choice on cells: first write wins. -/
def cellOr : Option ℚ → Option ℚ → Option ℚ
  | some v, _ => some v
  | none, b => b

/-- The value the record loop leaves in cell `(i, c)`: the coerced value of
the first record in the list whose date parses to day `i` (if any). -/
def firstVal (l : List Record) (i : Nat) (c : Col) : Option ℚ :=
  (l.find? (fun r => recDay r == some i)).map (fun r => (r.get c).getD 0)

/-! ### Concrete inputs used by the worked example and the witnesses -/

/-- First record of the spec's worked example. -/
def exampleRecord1 : Record := ⟨"2021-01-01", some 10, some 100, none, some 0⟩

/-- Second record of the spec's worked example. -/
def exampleRecord2 : Record := ⟨"2021-01-03", some 12, some 90, some 500, some 0⟩

/-- The spec's worked-example input. -/
def exampleRaw : RawData := ⟨[exampleRecord1, exampleRecord2]⟩

/-- The frame the worked example wrangles to. -/
def exampleTable : Table :=
  [(dayNumber ⟨2021, 1, 1⟩, ⟨some 10, some 100, some 0, some 0⟩),
   (dayNumber ⟨2021, 1, 2⟩, ⟨some 0, some 0, some 0, some 0⟩),
   (dayNumber ⟨2021, 1, 3⟩, ⟨some 12, some 90, some 500, some 0⟩)]

/-- A record with a date shared with `dupRecordB` (first encountered). -/
def dupRecordA : Record := ⟨"2021-01-01", some 5, some 6, none, some 7⟩

/-- A later record with the same date as `dupRecordA`. -/
def dupRecordB : Record := ⟨"2021-01-01", some 8, some 9, some 11, some 12⟩

/-- Duplicate-date input: both records fall on 2021-01-01. -/
def dupRaw : RawData := ⟨[dupRecordA, dupRecordB]⟩

/-- The frame `dupRaw` wrangles to: every cell comes from `dupRecordA`,
its `null` firstDose coerced to `0.0`. -/
def dupTable : Table :=
  [(dayNumber ⟨2021, 1, 1⟩, ⟨some 5, some 6, some 0, some 7⟩)]

/-- A record whose date string is not parseable. -/
def badRecord : Record := ⟨"not-a-date", some 1, none, none, none⟩

/-- Input containing a malformed date string. -/
def badRaw : RawData := ⟨[badRecord]⟩

/-- A dashboard state used by the callback witnesses: some active frame and
the freshly constructed sync button. -/
def exampleState : DashboardState := { df := exampleTable, button := apibutton }

/-! ### Calendar lemmas -/

theorem isLeapYear_iff (y : Nat) :
    isLeapYear y = true ↔ ((y % 4 = 0 ∧ y % 100 ≠ 0) ∨ y % 400 = 0) := by
  simp [isLeapYear, Bool.or_eq_true, Bool.and_eq_true, beq_iff_eq, bne_iff_ne]

theorem cent_le_quad (y : Nat) : (y + 99) / 100 ≤ (y + 3) / 4 := by
  rw [Nat.le_div_iff_mul_le (by norm_num : (0:Nat) < 4)]
  have h1 : (y + 99) / 100 * 100 ≤ y + 99 := Nat.div_mul_le_self _ _
  omega

theorem daysBeforeYear_succ (y : Nat) :
    daysBeforeYear (y + 1) = daysBeforeYear y + daysInYear y := by
  have h4 := Nat.succ_div (y + 3) 4
  have h100 := Nat.succ_div (y + 99) 100
  have h400 := Nat.succ_div (y + 399) 400
  have hq := cent_le_quad y
  have hl := isLeapYear_iff y
  unfold daysBeforeYear countLeapBefore daysInYear
  have e4 : y + 1 + 3 = y + 3 + 1 := by omega
  have e100 : y + 1 + 99 = y + 99 + 1 := by omega
  have e400 : y + 1 + 399 = y + 399 + 1 := by omega
  rw [e4, e100, e400, h4, h100, h400]
  cases hL : isLeapYear y with
  | true =>
    rw [hL] at hl
    simp only [if_pos rfl]
    have hd := hl.mp rfl
    split_ifs <;> omega
  | false =>
    rw [hL] at hl
    simp only [Bool.false_eq_true, if_false]
    have hd : ¬((y % 4 = 0 ∧ y % 100 ≠ 0) ∨ y % 400 = 0) := by
      intro h; exact absurd (hl.mpr h) (by simp)
    split_ifs <;> omega

theorem daysBeforeYear_mono {y z : Nat} (h : y ≤ z) :
    daysBeforeYear y ≤ daysBeforeYear z := by
  have key : ∀ n, daysBeforeYear y ≤ daysBeforeYear (y + n) := by
    intro n
    induction n with
    | zero => exact Nat.le_refl _
    | succ n ih =>
      have e : y + (n + 1) = (y + n) + 1 := by omega
      rw [e, daysBeforeYear_succ]
      exact Nat.le_trans ih (Nat.le_add_right _ _)
  have e : z = y + (z - y) := by omega
  rw [e]; exact key _

theorem monthOffset_succ (y m : Nat) :
    monthOffset y (m + 1) = monthOffset y m + daysInMonth y m := rfl

theorem monthOffset_mono {y m k : Nat} (h : m ≤ k) :
    monthOffset y m ≤ monthOffset y k := by
  have key : ∀ n, monthOffset y m ≤ monthOffset y (m + n) := by
    intro n
    induction n with
    | zero => exact Nat.le_refl _
    | succ n ih =>
      have e : m + (n + 1) = (m + n) + 1 := by omega
      rw [e, monthOffset_succ]
      exact Nat.le_trans ih (Nat.le_add_right _ _)
  have e : k = m + (k - m) := by omega
  rw [e]; exact key _

theorem monthOffset_13 (y : Nat) : monthOffset y 13 = daysInYear y := by
  have h0 : monthOffset y 13
      = monthOffset y 2 + daysInMonth y 2 + daysInMonth y 3 + daysInMonth y 4
        + daysInMonth y 5 + daysInMonth y 6 + daysInMonth y 7 + daysInMonth y 8
        + daysInMonth y 9 + daysInMonth y 10 + daysInMonth y 11
        + daysInMonth y 12 := rfl
  have h1 : monthOffset y 2 = 31 := by
    have e : monthOffset y 2 = monthOffset y 0 + daysInMonth y 0 + daysInMonth y 1 := rfl
    rw [e]; norm_num [monthOffset, daysInMonth]
  have h3 : daysInMonth y 3 = 31 := by norm_num [daysInMonth]
  have h4 : daysInMonth y 4 = 30 := by norm_num [daysInMonth]
  have h5 : daysInMonth y 5 = 31 := by norm_num [daysInMonth]
  have h6 : daysInMonth y 6 = 30 := by norm_num [daysInMonth]
  have h7 : daysInMonth y 7 = 31 := by norm_num [daysInMonth]
  have h8 : daysInMonth y 8 = 31 := by norm_num [daysInMonth]
  have h9 : daysInMonth y 9 = 30 := by norm_num [daysInMonth]
  have h10 : daysInMonth y 10 = 31 := by norm_num [daysInMonth]
  have h11 : daysInMonth y 11 = 30 := by norm_num [daysInMonth]
  have h12 : daysInMonth y 12 = 31 := by norm_num [daysInMonth]
  cases hL : isLeapYear y with
  | false =>
    have h2 : daysInMonth y 2 = 28 := by norm_num [daysInMonth, hL]
    rw [h0, h1, h2, h3, h4, h5, h6, h7, h8, h9, h10, h11, h12]
    norm_num [daysInYear, hL]
  | true =>
    have h2 : daysInMonth y 2 = 29 := by norm_num [daysInMonth, hL]
    rw [h0, h1, h2, h3, h4, h5, h6, h7, h8, h9, h10, h11, h12]
    norm_num [daysInYear, hL]

theorem daysInMonth_le_31 (y m : Nat) : daysInMonth y m ≤ 31 := by
  unfold daysInMonth
  split_ifs <;> omega
theorem dayNumber_lt_of_lt {a b : Date} (ha : a.Valid) (hb : b.Valid)
    (h : a.year < b.year
        ∨ (a.year = b.year ∧ (a.month < b.month
        ∨ (a.month = b.month ∧ a.day < b.day)))) :
    dayNumber a < dayNumber b := by
  obtain ⟨hay, ham1, ham2, had1, had2⟩ := ha
  obtain ⟨hby, hbm1, hbm2, hbd1, hbd2⟩ := hb
  rcases h with hy | ⟨hy, hm | ⟨hm, hd⟩⟩
  · -- strictly earlier year
    have h1 : dayNumber a
        ≤ daysBeforeYear a.year + monthOffset a.year (a.month + 1) := by
      rw [monthOffset_succ]
      unfold dayNumber
      omega
    have h2 : monthOffset a.year (a.month + 1) ≤ monthOffset a.year 13 :=
      monthOffset_mono (by omega)
    have h3 : daysBeforeYear a.year + monthOffset a.year 13
        = daysBeforeYear (a.year + 1) := by
      rw [monthOffset_13, daysBeforeYear_succ]
    have h4 : daysBeforeYear (a.year + 1) ≤ daysBeforeYear b.year :=
      daysBeforeYear_mono (by omega)
    have h5 : daysBeforeYear b.year < dayNumber b := by
      unfold dayNumber; omega
    omega
  · -- same year, strictly earlier month
    have h1 : monthOffset a.year (a.month + 1)
        = monthOffset a.year a.month + daysInMonth a.year a.month :=
      monthOffset_succ _ _
    have h2 : monthOffset a.year (a.month + 1) ≤ monthOffset a.year b.month :=
      monthOffset_mono (by omega)
    unfold dayNumber
    rw [← hy] at *
    omega
  · -- same year and month, strictly earlier day
    unfold dayNumber
    rw [← hy, ← hm] at *
    omega

theorem dayNumber_le_of_key_le {a b : Date} (ha : a.Valid) (hb : b.Valid)
    (h : dateKey a ≤ dateKey b) : dayNumber a ≤ dayNumber b := by
  by_cases heq : dateKey a = dateKey b
  · -- equal keys force equal dates, given the component bounds
    have hma : a.month ≤ 12 := ha.2.2.1
    have hmb : b.month ≤ 12 := hb.2.2.1
    have hda : a.day ≤ 31 :=
      Nat.le_trans ha.2.2.2.2 (daysInMonth_le_31 _ _)
    have hdb : b.day ≤ 31 :=
      Nat.le_trans hb.2.2.2.2 (daysInMonth_le_31 _ _)
    unfold dateKey at heq
    have : a.year = b.year ∧ a.month = b.month ∧ a.day = b.day := by omega
    unfold dayNumber
    rw [this.1, this.2.1, this.2.2]
  · have hlt : dateKey a < dateKey b := by omega
    have hma : a.month ≤ 12 := ha.2.2.1
    have hmb : b.month ≤ 12 := hb.2.2.1
    have hda : a.day ≤ 31 :=
      Nat.le_trans ha.2.2.2.2 (daysInMonth_le_31 _ _)
    have hdb : b.day ≤ 31 :=
      Nat.le_trans hb.2.2.2.2 (daysInMonth_le_31 _ _)
    have hlex : a.year < b.year
        ∨ (a.year = b.year ∧ (a.month < b.month
        ∨ (a.month = b.month ∧ a.day < b.day))) := by
      unfold dateKey at hlt
      omega
    exact Nat.le_of_lt (dayNumber_lt_of_lt ha hb hlex)

/-! ### Parser and string-order lemmas -/

theorem isDigitChar_bounds {c : Char} (h : isDigitChar c = true) :
    48 ≤ c.toNat ∧ c.toNat ≤ 57 := by
  unfold isDigitChar at h
  simp [Bool.and_eq_true, decide_eq_true_eq] at h
  exact h

theorem parseDateChars_inv {l : List Char} {a : Date}
    (h : parseDateChars l = some a) :
    ∃ y1 y2 y3 y4 m1 m2 d1 d2,
      l = [y1, y2, y3, y4, '-', m1, m2, '-', d1, d2] ∧
      isDigitChar y1 = true ∧ isDigitChar y2 = true ∧
      isDigitChar y3 = true ∧ isDigitChar y4 = true ∧
      isDigitChar m1 = true ∧ isDigitChar m2 = true ∧
      isDigitChar d1 = true ∧ isDigitChar d2 = true ∧
      a = ⟨1000 * digitVal y1 + 100 * digitVal y2 + 10 * digitVal y3 + digitVal y4,
           10 * digitVal m1 + digitVal m2,
           10 * digitVal d1 + digitVal d2⟩ ∧
      a.Valid := by
  rcases l with _ | ⟨c1, _ | ⟨c2, _ | ⟨c3, _ | ⟨c4, _ | ⟨c5, _ | ⟨c6, _ | ⟨c7,
      _ | ⟨c8, _ | ⟨c9, _ | ⟨c10, _ | ⟨c11, rest⟩⟩⟩⟩⟩⟩⟩⟩⟩⟩⟩ <;>
    simp only [parseDateChars] at h <;>
    try exact Option.noConfusion h
  split_ifs at h with hguard hbounds
  · rw [Bool.and_eq_true, Bool.and_eq_true, Bool.and_eq_true, Bool.and_eq_true,
      Bool.and_eq_true, Bool.and_eq_true, Bool.and_eq_true, Bool.and_eq_true,
      Bool.and_eq_true] at hguard
    obtain ⟨⟨⟨⟨⟨⟨⟨⟨⟨h1, h2⟩, h3⟩, h4⟩, h5⟩, h6⟩, h7⟩, h8⟩, h9⟩, h10⟩ := hguard
    rw [beq_iff_eq] at h5 h8
    subst h5; subst h8
    refine ⟨c1, c2, c3, c4, c6, c7, c9, c10, rfl, h1, h2, h3, h4, h6, h7, h9, h10, ?_, ?_⟩
    · injection h with h; exact h.symm
    · injection h with h
      rw [← h]
      exact ⟨hbounds.1, hbounds.2.1, hbounds.2.2.1, hbounds.2.2.2.1, hbounds.2.2.2.2⟩

theorem charListLe_cons (a b : Char) (as bs : List Char) :
    charListLe (a :: as) (b :: bs) =
      if a.toNat < b.toNat then true
      else if b.toNat < a.toNat then false
      else charListLe as bs := rfl

theorem charListLe_cons_iff (a b : Char) (as bs : List Char) :
    charListLe (a :: as) (b :: bs) = true ↔
      (a.toNat < b.toNat ∨ (a.toNat = b.toNat ∧ charListLe as bs = true)) := by
  rw [charListLe_cons]
  split_ifs with h1 h2
  · exact iff_of_true rfl (Or.inl h1)
  · refine iff_of_false (by simp) ?_
    rintro (h | ⟨h, _⟩) <;> omega
  · constructor
    · intro h; exact Or.inr ⟨by omega, h⟩
    · rintro (h | ⟨_, h⟩)
      · omega
      · exact h

theorem charListLe_total (l1 l2 : List Char) :
    charListLe l1 l2 = true ∨ charListLe l2 l1 = true := by
  induction l1 generalizing l2 with
  | nil => exact Or.inl rfl
  | cons a as ih =>
    cases l2 with
    | nil => exact Or.inr rfl
    | cons b bs =>
      rcases ih bs with h | h
      · rcases Nat.lt_trichotomy a.toNat b.toNat with hlt | heq | hgt
        · exact Or.inl ((charListLe_cons_iff a b as bs).mpr (Or.inl hlt))
        · exact Or.inl ((charListLe_cons_iff a b as bs).mpr (Or.inr ⟨heq, h⟩))
        · exact Or.inr ((charListLe_cons_iff b a bs as).mpr (Or.inl hgt))
      · rcases Nat.lt_trichotomy a.toNat b.toNat with hlt | heq | hgt
        · exact Or.inl ((charListLe_cons_iff a b as bs).mpr (Or.inl hlt))
        · exact Or.inr ((charListLe_cons_iff b a bs as).mpr (Or.inr ⟨heq.symm, h⟩))
        · exact Or.inr ((charListLe_cons_iff b a bs as).mpr (Or.inl hgt))

theorem charListLe_trans {l1 l2 l3 : List Char} (h12 : charListLe l1 l2 = true)
    (h23 : charListLe l2 l3 = true) : charListLe l1 l3 = true := by
  induction l1 generalizing l2 l3 with
  | nil => rfl
  | cons a as ih =>
    cases l2 with
    | nil => exact absurd h12 (by simp [charListLe])
    | cons b bs =>
      cases l3 with
      | nil => exact absurd h23 (by simp [charListLe])
      | cons c cs =>
        rw [charListLe_cons_iff] at h12 h23 ⊢
        rcases h12 with h12 | ⟨h12e, h12r⟩ <;> rcases h23 with h23 | ⟨h23e, h23r⟩
        · exact Or.inl (by omega)
        · exact Or.inl (by omega)
        · exact Or.inl (by omega)
        · exact Or.inr ⟨by omega, ih h12r h23r⟩

theorem dateKey_le_of_charListLe {l1 l2 : List Char} {a b : Date}
    (hs : parseDateChars l1 = some a) (ht : parseDateChars l2 = some b)
    (hle : charListLe l1 l2 = true) : dateKey a ≤ dateKey b := by
  obtain ⟨y1, y2, y3, y4, m1, m2, d1, d2, hl, hy1, hy2, hy3, hy4, hm1, hm2,
    hd1, hd2, ha, -⟩ := parseDateChars_inv hs
  obtain ⟨z1, z2, z3, z4, n1, n2, e1, e2, hl2, hz1, hz2, hz3, hz4, hn1, hn2,
    he1, he2, hb, -⟩ := parseDateChars_inv ht
  subst hl; subst hl2; subst ha; subst hb
  simp only [charListLe_cons_iff,
    show charListLe ([] : List Char) [] = true from rfl, and_true] at hle
  have by1 := isDigitChar_bounds hy1
  have by2 := isDigitChar_bounds hy2
  have by3 := isDigitChar_bounds hy3
  have by4 := isDigitChar_bounds hy4
  have bm1 := isDigitChar_bounds hm1
  have bm2 := isDigitChar_bounds hm2
  have bd1 := isDigitChar_bounds hd1
  have bd2 := isDigitChar_bounds hd2
  have bz1 := isDigitChar_bounds hz1
  have bz2 := isDigitChar_bounds hz2
  have bz3 := isDigitChar_bounds hz3
  have bz4 := isDigitChar_bounds hz4
  have bn1 := isDigitChar_bounds hn1
  have bn2 := isDigitChar_bounds hn2
  have be1 := isDigitChar_bounds he1
  have be2 := isDigitChar_bounds he2
  unfold dateKey digitVal
  simp only at hle ⊢
  omega

/-! ### Sorting lemmas -/

instance : IsTotal String strLeProp :=
  ⟨fun s t => charListLe_total s.data t.data⟩

instance : IsTrans String strLeProp :=
  ⟨fun _ _ _ h1 h2 => charListLe_trans h1 h2⟩

theorem charListLe_refl (l : List Char) : charListLe l l = true := by
  induction l with
  | nil => rfl
  | cons a as ih => rw [charListLe_cons_iff]; exact Or.inr ⟨rfl, ih⟩

theorem sortStrings_perm (l : List String) : (sortStrings l).Perm l :=
  List.perm_insertionSort strLeProp l

theorem sortStrings_sorted (l : List String) :
    List.Sorted strLeProp (sortStrings l) :=
  List.sorted_insertionSort strLeProp l

theorem sorted_head_le {first : String} {rest : List String}
    (hs : List.Sorted strLeProp (first :: rest)) {x : String}
    (hx : x ∈ first :: rest) : strLeProp first x := by
  rcases List.mem_cons.mp hx with h | h
  · subst h; exact charListLe_refl _
  · exact (List.rel_of_sorted_cons hs) x h

theorem sorted_le_getLast : ∀ {l : List String},
    List.Sorted strLeProp l → (hne : l ≠ []) → ∀ x ∈ l,
      strLeProp x (l.getLast hne) := by
  intro l
  induction l with
  | nil => intro _ hne; exact absurd rfl hne
  | cons a t ih =>
    intro hs hne x hx
    cases t with
    | nil =>
      rw [List.mem_singleton] at hx
      subst hx
      exact charListLe_refl _
    | cons b u =>
      rw [List.getLast_cons (by simp)]
      rcases List.mem_cons.mp hx with h | h
      · subst h
        exact (List.rel_of_sorted_cons hs) _ (List.getLast_mem _)
      · exact ih (List.Sorted.of_cons hs) (by simp) x h

/-! ### Frame manipulation lemmas -/

theorem RowN.get_set (r : RowN) (c cc : Col) (v : Option ℚ) :
    (r.set c v).get cc = if cc = c then v else r.get cc := by
  cases c <;> cases cc <;> simp [RowN.get, RowN.set]

theorem cellOr_none (a : Option ℚ) : cellOr a none = a := by
  cases a <;> rfl

theorem cellOr_some_absorb (a w : Option ℚ) (v : ℚ) :
    cellOr (cellOr a (some v)) w = cellOr a (some v) := by
  cases a <;> rfl

theorem tableLookup_eq_none_iff (df : Table) (i : Nat) :
    tableLookup df i = none ↔ i ∉ df.map Prod.fst := by
  unfold tableLookup
  rw [Option.map_eq_none', List.find?_eq_none]
  simp only [beq_iff_eq, List.mem_map, not_exists]
  constructor
  · rintro h x ⟨hx, e⟩
    exact h x hx e
  · intro h x hx e
    exact h x ⟨hx, e⟩

theorem tableLookup_cons (p : Nat × RowN) (t : Table) (j : Nat) :
    tableLookup (p :: t) j
      = if p.1 = j then some p.2 else tableLookup t j := by
  unfold tableLookup
  rw [List.find?_cons]
  by_cases h : p.1 = j
  · have hb : (p.1 == j) = true := by simp [h]
    simp [hb, h]
  · have hb : (p.1 == j) = false := by simp [h]
    simp [hb, h]

theorem tableSet_cons (p : Nat × RowN) (t : Table) (i : Nat) (c : Col) (v : ℚ) :
    tableSet (p :: t) i c v
      = (if p.1 = i then (p.1, p.2.set c (some v)) else p) :: tableSet t i c v := by
  unfold tableSet
  by_cases h : p.1 = i <;> simp [h]

theorem tableSet_map_fst (df : Table) (i : Nat) (c : Col) (v : ℚ) :
    (tableSet df i c v).map Prod.fst = df.map Prod.fst := by
  induction df with
  | nil => rfl
  | cons p t ih =>
    rw [tableSet_cons]
    by_cases h : p.1 = i <;> simp [h, ih]

theorem tableLookup_tableSet (df : Table) (i j : Nat) (c : Col) (v : ℚ) :
    tableLookup (tableSet df i c v) j
      = (tableLookup df j).map
          (fun row => if j = i then row.set c (some v) else row) := by
  induction df with
  | nil => rfl
  | cons p t ih =>
    rw [tableSet_cons, tableLookup_cons]
    by_cases hi : p.1 = i <;> by_cases hj : p.1 = j
    · have hji : j = i := by rw [← hj, ← hi]
      simp [hi, hj, hji, tableLookup_cons]
    · have hij : ¬(i = j) := by rw [← hi]; exact hj
      simp [hi, hj, hij, tableLookup_cons, ih]
    · have hji : ¬(j = i) := by rw [← hj]; omega
      simp [hi, hj, hji, tableLookup_cons]
    · simp [hi, hj, tableLookup_cons, ih]

theorem tableLookup_isSome_of_mem {df : Table} {i : Nat}
    (h : i ∈ df.map Prod.fst) : ∃ row, tableLookup df i = some row := by
  cases hl : tableLookup df i with
  | none => exact absurd h ((tableLookup_eq_none_iff df i).mp hl)
  | some row => exact ⟨row, rfl⟩

theorem applyCol_spec (entry : Record) (i : Nat) (df : Table) (c : Col)
    {row : RowN} (hrow : tableLookup df i = some row) :
    ∃ df2, applyCol entry i df c = Except.ok df2 ∧
      df2.map Prod.fst = df.map Prod.fst ∧
      ∀ j cc, cellD df2 j cc =
        if j = i ∧ cc = c then
          cellOr (cellD df i c) (some ((entry.get c).getD 0))
        else cellD df j cc := by
  cases hc : row.get c with
  | some w =>
    refine ⟨df, by simp [applyCol, hrow, hc], rfl, ?_⟩
    intro j cc
    by_cases h : j = i ∧ cc = c
    · obtain ⟨h1, h2⟩ := h
      subst h1; subst h2
      simp [cellD, hrow, hc, cellOr]
    · simp [h]
  | none =>
    refine ⟨tableSet df i c ((entry.get c).getD 0), by simp [applyCol, hrow, hc],
      tableSet_map_fst df i c _, ?_⟩
    intro j cc
    cases hl : tableLookup df j with
    | none =>
      by_cases hji : j = i
      · subst hji; rw [hrow] at hl; cases hl
      · simp [cellD, tableLookup_tableSet, hl, hji]
    | some row2 =>
      by_cases hji : j = i
      · subst hji
        have hr2 : row2 = row := by
          rw [hrow] at hl
          injection hl with h
          exact h.symm
        subst hr2
        by_cases hcc : cc = c
        · subst hcc
          simp [cellD, tableLookup_tableSet, hl, RowN.get_set, hc, cellOr]
        · simp [cellD, tableLookup_tableSet, hl, RowN.get_set, hcc]
      · simp [cellD, tableLookup_tableSet, hl, hji]

theorem applyEntry_spec {entry : Record} {j : Nat} (hj : recDay entry = some j)
    (df : Table) (hin : j ∈ df.map Prod.fst) :
    ∃ df2, applyEntry df entry = Except.ok df2 ∧
      df2.map Prod.fst = df.map Prod.fst ∧
      ∀ i c, cellD df2 i c =
        if i = j then cellOr (cellD df i c) (some ((entry.get c).getD 0))
        else cellD df i c := by
  unfold recDay at hj
  cases hp : parse_date entry.date with
  | none => rw [hp] at hj; cases hj
  | some dt =>
    rw [hp, Option.map_some'] at hj
    have hdn : dayNumber dt = j := by injection hj
    subst hdn
    obtain ⟨row, hrow⟩ := tableLookup_isSome_of_mem hin
    obtain ⟨df1, e1, k1, c1⟩ := applyCol_spec entry _ df .beds hrow
    obtain ⟨row1, hrow1⟩ := tableLookup_isSome_of_mem (k1 ▸ hin)
    obtain ⟨df2, e2, k2, c2⟩ := applyCol_spec entry _ df1 .cases hrow1
    obtain ⟨row2, hrow2⟩ := tableLookup_isSome_of_mem (k2 ▸ k1 ▸ hin)
    obtain ⟨df3, e3, k3, c3⟩ := applyCol_spec entry _ df2 .firstDose hrow2
    obtain ⟨row3, hrow3⟩ := tableLookup_isSome_of_mem (k3 ▸ k2 ▸ k1 ▸ hin)
    obtain ⟨df4, e4, k4, c4⟩ := applyCol_spec entry _ df3 .secondDose hrow3
    refine ⟨df4, ?_, by rw [k4, k3, k2, k1], ?_⟩
    · simp only [applyEntry, hp, Except.bind, e1, e2, e3, e4]
    · intro i c
      by_cases hij : i = dayNumber dt
      · subst hij
        cases c <;> simp [c4, c3, c2, c1]
      · simp [c4, c3, c2, c1, hij]

theorem applyEntries_spec (idx : List Nat) :
    ∀ (l : List Record) (df : Table), df.map Prod.fst = idx →
      (∀ r ∈ l, ∃ j, recDay r = some j ∧ j ∈ idx) →
      ∃ df2, applyEntries df l = Except.ok df2 ∧ df2.map Prod.fst = idx ∧
        ∀ i c, cellD df2 i c = cellOr (cellD df i c) (firstVal l i c) := by
  intro l
  induction l with
  | nil =>
    intro df hk _
    refine ⟨df, rfl, hk, ?_⟩
    intro i c
    simp [firstVal, cellOr_none]
  | cons e l ih =>
    intro df hk hl
    obtain ⟨j, hj, hjin⟩ := hl e (by simp)
    obtain ⟨df1, e1, k1, c1⟩ := applyEntry_spec hj df (by rw [hk]; exact hjin)
    obtain ⟨df2, e2, k2, c2⟩ :=
      ih df1 (by rw [k1, hk]) (fun r hr => hl r (by simp [hr]))
    refine ⟨df2, ?_, k2, ?_⟩
    · simp only [applyEntries, e1, e2]
    · intro i c
      rw [c2, c1]
      by_cases hij : i = j
      · subst hij
        have hfv : firstVal (e :: l) i c = some ((e.get c).getD 0) := by
          simp [firstVal, List.find?_cons, hj]
        rw [hfv]
        simp only [if_pos rfl]
        exact cellOr_some_absorb _ _ _
      · have hfv : firstVal (e :: l) i c = firstVal l i c := by
          have hb : (recDay e == some i) = false := by
            simp [hj]
            omega
          simp [firstVal, List.find?_cons, hb]
        rw [hfv]
        simp [hij]

theorem applyEntries_ok_inv :
    ∀ (l : List Record) (df df2 : Table), applyEntries df l = Except.ok df2 →
      ∀ r ∈ l, ∃ j, recDay r = some j ∧ j ∈ df.map Prod.fst := by
  intro l
  induction l with
  | nil => intro df df2 _ r hr; cases hr
  | cons e l ih =>
    intro df df2 hok r hr
    unfold applyEntries at hok
    cases he : applyEntry df e with
    | error err => rw [he] at hok; cases hok
    | ok df1 =>
      rw [he] at hok
      -- invert applyEntry success
      have hparse : ∃ dt, parse_date e.date = some dt := by
        cases hp : parse_date e.date with
        | none => rw [applyEntry, hp] at he; cases he
        | some dt => exact ⟨dt, rfl⟩
      obtain ⟨dt, hp⟩ := hparse
      have hlook : dayNumber dt ∈ df.map Prod.fst := by
        by_contra hnot
        have hnone : tableLookup df (dayNumber dt) = none :=
          (tableLookup_eq_none_iff df (dayNumber dt)).mpr hnot
        rw [applyEntry, hp] at he
        simp only [applyCol, hnone, Except.bind] at he
        cases he
      have hkeys : df1.map Prod.fst = df.map Prod.fst := by
        obtain ⟨df1x, e1, k1, -⟩ :=
          @applyEntry_spec e (dayNumber dt) (by simp [recDay, hp]) df hlook
        rw [he] at e1
        injection e1 with h
        rw [← h] at k1
        exact k1
      rcases List.mem_cons.mp hr with hre | hrl
      · subst hre
        exact ⟨dayNumber dt, by simp [recDay, hp], hlook⟩
      · obtain ⟨j, hj1, hj2⟩ := ih df1 df2 hok r hrl
        exact ⟨j, hj1, hkeys ▸ hj2⟩

theorem applyEntries_parseError :
    ∀ (l : List Record) (df : Table),
      (∀ r ∈ l, ∀ dt, parse_date r.date = some dt →
        dayNumber dt ∈ df.map Prod.fst) →
      (∃ r ∈ l, parse_date r.date = none) →
      applyEntries df l = Except.error WrangleError.parseError := by
  intro l
  induction l with
  | nil => intro df _ hbad; obtain ⟨r, hr, -⟩ := hbad; cases hr
  | cons e l ih =>
    intro df hgood hbad
    cases hp : parse_date e.date with
    | none =>
      have he : applyEntry df e = Except.error WrangleError.parseError := by
        rw [applyEntry, hp]
      simp only [applyEntries, he]
    | some dt =>
      have hin : dayNumber dt ∈ df.map Prod.fst := hgood e (by simp) dt hp
      obtain ⟨df1, e1, k1, -⟩ :=
        @applyEntry_spec e (dayNumber dt) (by simp [recDay, hp]) df hin
      have hbad1 : ∃ r ∈ l, parse_date r.date = none := by
        obtain ⟨r, hr, hrn⟩ := hbad
        rcases List.mem_cons.mp hr with hre | hrl
        · subst hre; rw [hp] at hrn; cases hrn
        · exact ⟨r, hrl, hrn⟩
      have hgood1 : ∀ r ∈ l, ∀ dt2, parse_date r.date = some dt2 →
          dayNumber dt2 ∈ df1.map Prod.fst := by
        intro r hr dt2 hp2
        rw [k1]
        exact hgood r (by simp [hr]) dt2 hp2
      simp only [applyEntries, e1, ih df1 hgood1 hbad1]

/-! ### Range, initial frame, and fillna lemmas -/

theorem mem_dateRange (s e j : Nat) : j ∈ dateRange s e ↔ s ≤ j ∧ j ≤ e := by
  unfold dateRange
  rw [List.mem_map]
  constructor
  · rintro ⟨k, hk, rfl⟩
    rw [List.mem_range] at hk
    omega
  · intro h
    refine ⟨j - s, ?_, by omega⟩
    rw [List.mem_range]
    omega

theorem dateRange_length (s e : Nat) : (dateRange s e).length = e + 1 - s := by
  simp [dateRange]

theorem dateRange_nodup (s e : Nat) : (dateRange s e).Nodup := by
  unfold dateRange
  exact (List.nodup_range _).map fun a b h => by omega

theorem initTable_map_fst (s e : Nat) :
    (initTable s e).map Prod.fst = dateRange s e := by
  unfold initTable
  rw [List.map_map]
  exact List.map_id _

theorem cellD_initTable (s e i : Nat) (c : Col) :
    cellD (initTable s e) i c = none := by
  unfold cellD tableLookup
  cases hf : (initTable s e).find? (fun p => p.1 == i) with
  | none => rfl
  | some q =>
    have hq : q ∈ initTable s e := List.mem_of_find?_eq_some hf
    have hrow : q.2 = emptyRowN := by
      unfold initTable at hq
      rw [List.mem_map] at hq
      obtain ⟨x, -, hxq⟩ := hq
      rw [← hxq]
    simp only [Option.map_some']
    rw [hrow]
    cases c <;> rfl

theorem cellOr_none_left (b : Option ℚ) : cellOr none b = b := rfl

theorem fillna_map_fst (df : Table) :
    (fillna df).map Prod.fst = df.map Prod.fst := by
  unfold fillna
  rw [List.map_map]
  exact List.map_congr_left fun p _ => rfl

theorem fillRow_get (r : RowN) (c : Col) :
    (fillRow r).get c = some ((r.get c).getD 0) := by
  cases c <;> rfl

theorem lookup_of_mem_nodup :
    ∀ {df : Table}, (df.map Prod.fst).Nodup → ∀ {p : Nat × RowN}, p ∈ df →
      tableLookup df p.1 = some p.2 := by
  intro df
  induction df with
  | nil => intro _ p hp; cases hp
  | cons q t ih =>
    intro hnd p hp
    rw [tableLookup_cons]
    rcases List.mem_cons.mp hp with hpq | hpt
    · subst hpq
      simp
    · have hne : ¬(q.1 = p.1) := by
        intro he
        have h1 : p.1 ∈ t.map Prod.fst := List.mem_map.mpr ⟨p, hpt, rfl⟩
        rw [List.map_cons, List.nodup_cons] at hnd
        exact hnd.1 (he ▸ h1)
      rw [if_neg hne]
      exact ih ((List.map_cons Prod.fst q t ▸ hnd).of_cons) hpt

/-! ### Top-level structure of `wrangle_data` -/

theorem parse_date_valid {s : String} {a : Date} (h : parse_date s = some a) :
    a.Valid := by
  obtain ⟨_, _, _, _, _, _, _, _, -, -, -, -, -, -, -, -, -, -, hv⟩ :=
    parseDateChars_inv h
  exact hv

theorem dayNumber_le_of_strLe {s t : String} {a b : Date}
    (hs : parse_date s = some a) (ht : parse_date t = some b)
    (h : strLeProp s t) : dayNumber a ≤ dayNumber b :=
  dayNumber_le_of_key_le (parse_date_valid hs) (parse_date_valid ht)
    (dateKey_le_of_charListLe hs ht h)

theorem wrangle_data_ok_inv {raw : RawData} {t : Table}
    (h : wrangle_data raw = Except.ok t) :
    ∃ first rest startdate enddate dffinal,
      sortStrings (raw.data.map Record.date) = first :: rest ∧
      parse_date first = some startdate ∧
      parse_date ((first :: rest).getLast (List.cons_ne_nil first rest))
        = some enddate ∧
      applyEntries (initTable (dayNumber startdate) (dayNumber enddate))
          raw.data = Except.ok dffinal ∧
      t = fillna dffinal := by
  unfold wrangle_data at h
  cases hs : sortStrings (raw.data.map Record.date) with
  | nil =>
    rw [hs] at h
    cases h
  | cons first rest =>
    rw [hs] at h
    try dsimp only at h
    cases hp1 : parse_date first with
    | none =>
      rw [hp1] at h
      cases h
    | some startdate =>
      rw [hp1] at h
      try dsimp only at h
      cases hp2 : parse_date ((first :: rest).getLast
          (List.cons_ne_nil first rest)) with
      | none =>
        rw [hp2] at h
        cases h
      | some enddate =>
        rw [hp2] at h
        try dsimp only at h
        cases he : applyEntries
            (initTable (dayNumber startdate) (dayNumber enddate)) raw.data with
        | error err =>
          rw [he] at h
          cases h
        | ok dffinal =>
          rw [he] at h
          try dsimp only at h
          injection h with h
          exact ⟨first, rest, startdate, enddate, dffinal, rfl, hp1, hp2, he,
            h.symm⟩

theorem wrangle_spec {raw : RawData} (hne : raw.data ≠ [])
    (hparse : ∀ r ∈ raw.data, (parse_date r.date).isSome) :
    ∃ t lo hi, wrangle_data raw = Except.ok t ∧
      lo ∈ raw.data.filterMap recDay ∧ hi ∈ raw.data.filterMap recDay ∧
      (∀ j ∈ raw.data.filterMap recDay, lo ≤ j ∧ j ≤ hi) ∧
      t.map Prod.fst = dateRange lo hi ∧
      ∀ p ∈ t, ∀ c, p.2.get c = some ((firstVal raw.data p.1 c).getD 0) := by
  have hdne : raw.data.map Record.date ≠ [] := by simp [hne]
  obtain ⟨first, rest, hs⟩ :
      ∃ f r, sortStrings (raw.data.map Record.date) = f :: r := by
    cases h0 : sortStrings (raw.data.map Record.date) with
    | nil =>
      have hperm := sortStrings_perm (raw.data.map Record.date)
      rw [h0] at hperm
      exact absurd hperm.symm.eq_nil hdne
    | cons f r => exact ⟨f, r, rfl⟩
  have hsorted : List.Sorted strLeProp (first :: rest) := by
    rw [← hs]; exact sortStrings_sorted _
  have hmem_sorted : ∀ x ∈ first :: rest, ∃ r ∈ raw.data, r.date = x := by
    intro x hx
    have hxm : x ∈ raw.data.map Record.date :=
      ((sortStrings_perm _).mem_iff).mp (hs ▸ hx)
    exact List.mem_map.mp hxm
  have hmem_rev : ∀ r ∈ raw.data, r.date ∈ first :: rest := by
    intro r hr
    rw [← hs]
    exact (sortStrings_perm _).mem_iff.mpr (List.mem_map.mpr ⟨r, hr, rfl⟩)
  obtain ⟨rf, hrf, hrfd⟩ := hmem_sorted first (by simp)
  obtain ⟨startdate, hp1⟩ : ∃ sd, parse_date first = some sd := by
    have hi := hparse rf hrf
    rw [hrfd] at hi
    exact Option.isSome_iff_exists.mp hi
  obtain ⟨rl, hrl, hrld⟩ := hmem_sorted
    ((first :: rest).getLast (List.cons_ne_nil first rest))
    (List.getLast_mem _)
  obtain ⟨enddate, hp2⟩ : ∃ ed,
      parse_date ((first :: rest).getLast (List.cons_ne_nil first rest))
        = some ed := by
    have hi := hparse rl hrl
    rw [hrld] at hi
    exact Option.isSome_iff_exists.mp hi
  have hbound : ∀ j ∈ raw.data.filterMap recDay,
      dayNumber startdate ≤ j ∧ j ≤ dayNumber enddate := by
    intro j hj
    rw [List.mem_filterMap] at hj
    obtain ⟨r, hr, hrj⟩ := hj
    unfold recDay at hrj
    cases hpr : parse_date r.date with
    | none => rw [hpr] at hrj; cases hrj
    | some dt =>
      rw [hpr, Option.map_some'] at hrj
      injection hrj with hrj
      subst hrj
      have hxmem : r.date ∈ first :: rest := hmem_rev r hr
      constructor
      · exact dayNumber_le_of_strLe hp1 hpr (sorted_head_le hsorted hxmem)
      · exact dayNumber_le_of_strLe hpr hp2
          (sorted_le_getLast hsorted (List.cons_ne_nil first rest) _ hxmem)
  have hloin : dayNumber startdate ∈ raw.data.filterMap recDay := by
    rw [List.mem_filterMap]
    exact ⟨rf, hrf, by simp [recDay, hrfd, hp1]⟩
  have hhiin : dayNumber enddate ∈ raw.data.filterMap recDay := by
    rw [List.mem_filterMap]
    exact ⟨rl, hrl, by simp [recDay, hrld, hp2]⟩
  have hrecs : ∀ r ∈ raw.data, ∃ j, recDay r = some j ∧
      j ∈ dateRange (dayNumber startdate) (dayNumber enddate) := by
    intro r hr
    obtain ⟨dt, hpr⟩ := Option.isSome_iff_exists.mp (hparse r hr)
    refine ⟨dayNumber dt, by simp [recDay, hpr], ?_⟩
    rw [mem_dateRange]
    exact hbound (dayNumber dt)
      (List.mem_filterMap.mpr ⟨r, hr, by simp [recDay, hpr]⟩)
  obtain ⟨df2, he, hk, hc⟩ :=
    applyEntries_spec (dateRange (dayNumber startdate) (dayNumber enddate))
      raw.data (initTable (dayNumber startdate) (dayNumber enddate))
      (initTable_map_fst _ _) hrecs
  have hw : wrangle_data raw = Except.ok (fillna df2) := by
    unfold wrangle_data
    rw [hs]
    try dsimp only
    rw [hp1, hp2]
    try dsimp only
    rw [he]
  refine ⟨fillna df2, dayNumber startdate, dayNumber enddate, hw, hloin,
    hhiin, hbound, ?_, ?_⟩
  · rw [fillna_map_fst, hk]
  · intro p hp c
    unfold fillna at hp
    rw [List.mem_map] at hp
    obtain ⟨q, hq, hpq⟩ := hp
    have hnd : (df2.map Prod.fst).Nodup := by
      rw [hk]; exact dateRange_nodup _ _
    have hlq : tableLookup df2 q.1 = some q.2 := lookup_of_mem_nodup hnd hq
    have hcd : cellD df2 q.1 c = q.2.get c := by unfold cellD; rw [hlq]
    have hval := hc q.1 c
    rw [cellD_initTable, cellOr_none_left, hcd] at hval
    rw [← hpq]
    dsimp only
    rw [fillRow_get, hval]

theorem wrangle_ok_cells {raw : RawData} {t : Table}
    (h : wrangle_data raw = Except.ok t) :
    ∃ lo hi, t.map Prod.fst = dateRange lo hi ∧
      ∀ p ∈ t, ∀ c, p.2.get c = some ((firstVal raw.data p.1 c).getD 0) := by
  obtain ⟨first, rest, sd, ed, dff, hs, hp1, hp2, he, ht⟩ :=
    wrangle_data_ok_inv h
  have hrecs : ∀ r ∈ raw.data, ∃ j, recDay r = some j ∧
      j ∈ dateRange (dayNumber sd) (dayNumber ed) := by
    have hinv := applyEntries_ok_inv raw.data _ _ he
    intro r hr
    obtain ⟨j, hj1, hj2⟩ := hinv r hr
    rw [initTable_map_fst] at hj2
    exact ⟨j, hj1, hj2⟩
  obtain ⟨df2, he2, hk2, hc2⟩ :=
    applyEntries_spec (dateRange (dayNumber sd) (dayNumber ed)) raw.data
      (initTable (dayNumber sd) (dayNumber ed)) (initTable_map_fst _ _) hrecs
  have hdf : dff = df2 := by
    rw [he] at he2
    injection he2 with h2
  subst hdf
  refine ⟨dayNumber sd, dayNumber ed, ?_, ?_⟩
  · rw [ht, fillna_map_fst, hk2]
  · intro p hp c
    rw [ht] at hp
    unfold fillna at hp
    rw [List.mem_map] at hp
    obtain ⟨q, hq, hpq⟩ := hp
    have hnd : (dff.map Prod.fst).Nodup := by
      rw [hk2]; exact dateRange_nodup _ _
    have hlq : tableLookup dff q.1 = some q.2 := lookup_of_mem_nodup hnd hq
    have hcd : cellD dff q.1 c = q.2.get c := by unfold cellD; rw [hlq]
    have hval := hc2 q.1 c
    rw [cellD_initTable, cellOr_none_left, hcd] at hval
    rw [← hpq]
    dsimp only
    rw [fillRow_get, hval]

theorem wrangle_malformed {raw : RawData}
    (hbad : ∃ r ∈ raw.data, parse_date r.date = none) :
    wrangle_data raw = Except.error WrangleError.parseError := by
  obtain ⟨rb, hrb, hrbn⟩ := hbad
  have hne : raw.data ≠ [] := by
    intro h0
    rw [h0] at hrb
    cases hrb
  have hdne : raw.data.map Record.date ≠ [] := by simp [hne]
  obtain ⟨first, rest, hs⟩ :
      ∃ f r, sortStrings (raw.data.map Record.date) = f :: r := by
    cases h0 : sortStrings (raw.data.map Record.date) with
    | nil =>
      have hperm := sortStrings_perm (raw.data.map Record.date)
      rw [h0] at hperm
      exact absurd hperm.symm.eq_nil hdne
    | cons f r => exact ⟨f, r, rfl⟩
  have hsorted : List.Sorted strLeProp (first :: rest) := by
    rw [← hs]; exact sortStrings_sorted _
  have hmem_rev : ∀ r ∈ raw.data, r.date ∈ first :: rest := by
    intro r hr
    rw [← hs]
    exact (sortStrings_perm _).mem_iff.mpr (List.mem_map.mpr ⟨r, hr, rfl⟩)
  cases hp1 : parse_date first with
  | none =>
    unfold wrangle_data
    rw [hs]
    try dsimp only
    rw [hp1]
  | some sd =>
    cases hp2 : parse_date ((first :: rest).getLast
        (List.cons_ne_nil first rest)) with
    | none =>
      unfold wrangle_data
      rw [hs]
      try dsimp only
      rw [hp1, hp2]
    | some ed =>
      have hgood : ∀ r ∈ raw.data, ∀ dt, parse_date r.date = some dt →
          dayNumber dt ∈
            (initTable (dayNumber sd) (dayNumber ed)).map Prod.fst := by
        intro r hr dt hpr
        rw [initTable_map_fst, mem_dateRange]
        have hxmem : r.date ∈ first :: rest := hmem_rev r hr
        constructor
        · exact dayNumber_le_of_strLe hp1 hpr (sorted_head_le hsorted hxmem)
        · exact dayNumber_le_of_strLe hpr hp2
            (sorted_le_getLast hsorted (List.cons_ne_nil first rest) _ hxmem)
      have herr := applyEntries_parseError raw.data
        (initTable (dayNumber sd) (dayNumber ed)) hgood ⟨rb, hrb, hrbn⟩
      unfold wrangle_data
      rw [hs]
      try dsimp only
      rw [hp1, hp2]
      try dsimp only
      rw [herr]

/-! ### Claim theorems -/

/-- Claim C1: for every non-empty input whose date strings all parse,
`wrangle_data` succeeds and the resulting frame has exactly one row per
calendar day from the earliest date present (`lo`) to the latest date
present (`hi`), with no gaps: its index is the full day range and its row
count is the day-span plus one. -/
theorem wrangle_series_covers_span (raw : RawData) (hne : raw.data ≠ [])
    (hparse : ∀ r ∈ raw.data, (parse_date r.date).isSome) :
    ∃ t lo hi, wrangle_data raw = Except.ok t ∧
      lo ∈ raw.data.filterMap recDay ∧ hi ∈ raw.data.filterMap recDay ∧
      (∀ j ∈ raw.data.filterMap recDay, lo ≤ j ∧ j ≤ hi) ∧
      t.map Prod.fst = dateRange lo hi ∧
      t.length = hi - lo + 1 := by
  obtain ⟨t, lo, hi, hw, hlo, hhi, hb, hmap, -⟩ := wrangle_spec hne hparse
  refine ⟨t, lo, hi, hw, hlo, hhi, hb, hmap, ?_⟩
  have hlen : t.length = (dateRange lo hi).length := by
    rw [← hmap, List.length_map]
  rw [hlen, dateRange_length]
  have hlohi : lo ≤ hi := (hb lo hlo).2
  omega

/-- Witness for C1 at the spec's worked example. -/
theorem wrangle_series_covers_span_witness :
    (exampleRaw.data ≠ [] ∧
      ∀ r ∈ exampleRaw.data, (parse_date r.date).isSome) ∧
    (∃ t lo hi, wrangle_data exampleRaw = Except.ok t ∧
      lo ∈ exampleRaw.data.filterMap recDay ∧
      hi ∈ exampleRaw.data.filterMap recDay ∧
      (∀ j ∈ exampleRaw.data.filterMap recDay, lo ≤ j ∧ j ≤ hi) ∧
      t.map Prod.fst = dateRange lo hi ∧
      t.length = hi - lo + 1) :=
  ⟨⟨by decide, by decide⟩,
    wrangle_series_covers_span exampleRaw (by decide) (by decide)⟩

/-- Claim C2: in every frame `wrangle_data` returns, every cell of every row
is numeric (never `NaN`); a day with no matching record gets `0.0` in every
column, and a `null` in the first-encountered record for a day yields `0.0`
for that column. -/
theorem wrangle_cells_all_numeric {raw : RawData} {t : Table}
    (h : wrangle_data raw = Except.ok t) :
    (∀ p ∈ t, ∀ c, ∃ q, p.2.get c = some q) ∧
    (∀ p ∈ t, (∀ r ∈ raw.data, recDay r ≠ some p.1) →
      ∀ c, p.2.get c = some 0) ∧
    (∀ p ∈ t, ∀ r, raw.data.find? (fun r2 => recDay r2 == some p.1) = some r →
      ∀ c, r.get c = none → p.2.get c = some 0) := by
  obtain ⟨lo, hi, hmap, hcells⟩ := wrangle_ok_cells h
  refine ⟨?_, ?_, ?_⟩
  · intro p hp c
    exact ⟨_, hcells p hp c⟩
  · intro p hp hnone c
    have hfv : firstVal raw.data p.1 c = none := by
      unfold firstVal
      rw [List.find?_eq_none.mpr]
      · rfl
      · intro r hr
        simp only [beq_iff_eq]
        exact hnone r hr
    rw [hcells p hp c, hfv]
    rfl
  · intro p hp r hfind c hrc
    have hfv : firstVal raw.data p.1 c = some ((r.get c).getD 0) := by
      unfold firstVal
      rw [hfind]
      rfl
    rw [hcells p hp c, hfv, hrc]
    rfl

/-- Witness for C2 at the spec's worked example. -/
theorem wrangle_cells_all_numeric_witness :
    wrangle_data exampleRaw = Except.ok exampleTable ∧
    ((∀ p ∈ exampleTable, ∀ c, ∃ q, p.2.get c = some q) ∧
     (∀ p ∈ exampleTable, (∀ r ∈ exampleRaw.data, recDay r ≠ some p.1) →
       ∀ c, p.2.get c = some 0) ∧
     (∀ p ∈ exampleTable, ∀ r,
        exampleRaw.data.find? (fun r2 => recDay r2 == some p.1) = some r →
        ∀ c, r.get c = none → p.2.get c = some 0)) :=
  ⟨by rfl, wrangle_cells_all_numeric (by rfl)⟩

/-- Claim C3: when two input records share a date, every column's cell for
that date holds the first-encountered record's (coerced) value; a later
record sharing the date never overwrites it. -/
theorem wrangle_first_write_wins {raw : RawData} {t : Table} {i : Nat}
    {r1 r2 : Record} (h : wrangle_data raw = Except.ok t)
    (hfind : raw.data.find? (fun r => recDay r == some i) = some r1)
    (hr2 : r2 ∈ raw.data) (hr2d : recDay r2 = some i) (hne : r2 ≠ r1) :
    ∀ p ∈ t, p.1 = i → ∀ c, p.2.get c = some ((r1.get c).getD 0) := by
  obtain ⟨lo, hi, hmap, hcells⟩ := wrangle_ok_cells h
  intro p hp hpi c
  rw [hcells p hp c]
  unfold firstVal
  rw [hpi, hfind]
  rfl

/-- Witness for C3 on a duplicate-date input. -/
theorem wrangle_first_write_wins_witness :
    (wrangle_data dupRaw = Except.ok dupTable ∧
     dupRaw.data.find? (fun r => recDay r == some (dayNumber ⟨2021, 1, 1⟩))
       = some dupRecordA ∧
     dupRecordB ∈ dupRaw.data ∧
     recDay dupRecordB = some (dayNumber ⟨2021, 1, 1⟩) ∧
     dupRecordB ≠ dupRecordA) ∧
    (∀ p ∈ dupTable, p.1 = dayNumber ⟨2021, 1, 1⟩ → ∀ c,
      p.2.get c = some ((dupRecordA.get c).getD 0)) :=
  ⟨⟨by rfl, by rfl, by decide, by rfl, by decide⟩,
    @wrangle_first_write_wins dupRaw dupTable (dayNumber ⟨2021, 1, 1⟩)
      dupRecordA dupRecordB (by rfl) (by rfl) (by decide) (by rfl) (by decide)⟩

/-- Claim C10: when the first-encountered record for a date has `null` in a
column and a later record with the same date has a number there, the cell
holds `0.0`: the coerced null is written first and permanently shadows the
later value. -/
theorem wrangle_null_shadows_later_value {raw : RawData} {t : Table} {i : Nat}
    {r1 r2 : Record} {c : Col} {v : ℚ} (h : wrangle_data raw = Except.ok t)
    (hfind : raw.data.find? (fun r => recDay r == some i) = some r1)
    (hr1c : r1.get c = none) (hr2 : r2 ∈ raw.data)
    (hr2d : recDay r2 = some i) (hr2c : r2.get c = some v) :
    ∀ p ∈ t, p.1 = i → p.2.get c = some 0 := by
  obtain ⟨lo, hi, hmap, hcells⟩ := wrangle_ok_cells h
  intro p hp hpi
  rw [hcells p hp c]
  unfold firstVal
  rw [hpi, hfind, Option.map_some', hr1c]
  rfl

/-- Witness for C10 on a duplicate-date input with a null first value. -/
theorem wrangle_null_shadows_later_value_witness :
    (wrangle_data dupRaw = Except.ok dupTable ∧
     dupRaw.data.find? (fun r => recDay r == some (dayNumber ⟨2021, 1, 1⟩))
       = some dupRecordA ∧
     dupRecordA.get Col.firstDose = none ∧
     dupRecordB ∈ dupRaw.data ∧
     recDay dupRecordB = some (dayNumber ⟨2021, 1, 1⟩) ∧
     dupRecordB.get Col.firstDose = some 11) ∧
    (∀ p ∈ dupTable, p.1 = dayNumber ⟨2021, 1, 1⟩ →
      p.2.get Col.firstDose = some 0) :=
  ⟨⟨by rfl, by rfl, by rfl, by decide, by rfl, by rfl⟩,
    @wrangle_null_shadows_later_value dupRaw dupTable (dayNumber ⟨2021, 1, 1⟩)
      dupRecordA dupRecordB Col.firstDose 11 (by rfl) (by rfl) (by rfl)
      (by decide) (by rfl) (by rfl)⟩

/-- Claim C4: on an input whose record list is empty, `wrangle_data` fails
with the empty-input error (the `IndexError` of `dates[0]`); it never
returns a table. -/
theorem wrangle_empty_input (raw : RawData) (h : raw.data = []) :
    wrangle_data raw = Except.error WrangleError.emptyInput := by
  obtain ⟨data⟩ := raw
  simp only at h
  subst h
  rfl

/-- Witness for C4 at the empty input. -/
theorem wrangle_empty_input_witness :
    (RawData.mk []).data = [] ∧
    wrangle_data ⟨[]⟩ = Except.error WrangleError.emptyInput :=
  ⟨rfl, wrangle_empty_input ⟨[]⟩ rfl⟩

/-- Claim C5: if any record's date string is malformed, `wrangle_data` fails
with the parse error (the `ValueError` of `pd.to_datetime`); the record is
never silently dropped. -/
theorem wrangle_malformed_date {raw : RawData} {r : Record}
    (hr : r ∈ raw.data) (hbad : parse_date r.date = none) :
    wrangle_data raw = Except.error WrangleError.parseError :=
  wrangle_malformed ⟨r, hr, hbad⟩

/-- Witness for C5 at an input with an unparseable date string. -/
theorem wrangle_malformed_date_witness :
    (badRecord ∈ badRaw.data ∧ parse_date badRecord.date = none) ∧
    wrangle_data badRaw = Except.error WrangleError.parseError :=
  ⟨⟨by decide, by decide⟩,
    @wrangle_malformed_date badRaw badRecord (by decide) (by decide)⟩

/-- Claim C6: `wrangle_data` is modelled as a pure function of its input (it
reads and writes no notebook state), so it is deterministic: equal inputs
give equal frames. -/
theorem wrangle_deterministic (raw1 raw2 : RawData) (h : raw1 = raw2) :
    wrangle_data raw1 = wrangle_data raw2 := by
  rw [h]

/-- Witness for C6 at the worked example. -/
theorem wrangle_deterministic_witness :
    exampleRaw = exampleRaw ∧
    wrangle_data exampleRaw = wrangle_data exampleRaw :=
  ⟨rfl, wrangle_deterministic exampleRaw exampleRaw rfl⟩

/-- Counterexample to claim C7 as stated: when the fetch returns a JSON
object whose record collection is empty (`{"data": []}`, a non-empty
mapping), the previous frame is indeed retained, but no user-visible failure
state is signalled — the button is put into the success state ("Synced",
check-circle icon) before the wrangler raises, and the error branch that
sets the failure state is never taken. -/
theorem refresh_empty_records_counterexample :
    (api_button_callback (some ⟨[]⟩) exampleState).state.df
      = exampleState.df ∧
    (api_button_callback (some ⟨[]⟩) exampleState).state.button.description
      = "Synced" ∧
    (api_button_callback (some ⟨[]⟩) exampleState).state.button.description
      ≠ "Error" ∧
    (api_button_callback (some ⟨[]⟩) exampleState).state.button.icon
      ≠ "exclamation-circle" ∧
    (api_button_callback (some ⟨[]⟩) exampleState).exn
      = some WrangleError.emptyInput :=
  ⟨rfl, rfl, by decide, by decide, rfl⟩

/-- Claim C7 as amended: the failure branch is taken only when the fetched
JSON object is empty (`len(apidata) == 0`); then the frame is retained
unchanged and the button signals the failure state.  When the fetch returns
a non-empty object whose record list is empty, the frame is still retained
untouched (no partial mutation), but the button is left in the success
state and the wrangler's empty-input error escapes the callback without a
redraw. -/
theorem refresh_empty_fetch_amended (s : DashboardState) :
    ((api_button_callback none s).state.df = s.df ∧
     (api_button_callback none s).state.button.icon = "exclamation-circle" ∧
     (api_button_callback none s).state.button.description = "Error" ∧
     (api_button_callback none s).state.button.style = "warning" ∧
     (api_button_callback none s).refreshedGraph = false ∧
     (api_button_callback none s).exn = none) ∧
    ((api_button_callback (some ⟨[]⟩) s).state.df = s.df ∧
     (api_button_callback (some ⟨[]⟩) s).state.button.description = "Synced" ∧
     (api_button_callback (some ⟨[]⟩) s).refreshedGraph = false ∧
     (api_button_callback (some ⟨[]⟩) s).exn
       = some WrangleError.emptyInput) :=
  ⟨⟨rfl, rfl, rfl, rfl, rfl, rfl⟩, ⟨rfl, rfl, rfl, rfl⟩⟩

/-- Claim C8: when the fetch returns an object containing a non-empty record
collection, that collection is passed to the wrangler and, when the wrangler
yields a frame, the active frame is replaced wholesale by it, the button
shows the success state, no exception escapes, and the graph is redrawn. -/
theorem refresh_nonempty_replaces_table (raw : RawData) (s : DashboardState)
    (t : Table) (hne : raw.data ≠ []) (hw : wrangle_data raw = Except.ok t) :
    (api_button_callback (some raw) s).state.df = t ∧
    (api_button_callback (some raw) s).refreshedGraph = true ∧
    (api_button_callback (some raw) s).exn = none ∧
    (api_button_callback (some raw) s).state.button.description = "Synced" ∧
    (api_button_callback (some raw) s).state.button.icon = "check-circle" := by
  simp [api_button_callback, hw]

/-- Witness for C8 at the worked example. -/
theorem refresh_nonempty_replaces_table_witness :
    (exampleRaw.data ≠ [] ∧ wrangle_data exampleRaw = Except.ok exampleTable) ∧
    ((api_button_callback (some exampleRaw) exampleState).state.df
        = exampleTable ∧
     (api_button_callback (some exampleRaw) exampleState).refreshedGraph
        = true ∧
     (api_button_callback (some exampleRaw) exampleState).exn = none ∧
     (api_button_callback (some exampleRaw) exampleState).state.button.description
        = "Synced" ∧
     (api_button_callback (some exampleRaw) exampleState).state.button.icon
        = "check-circle") :=
  ⟨⟨by decide, by rfl⟩,
    refresh_nonempty_replaces_table exampleRaw exampleState exampleTable
      (by decide) (by rfl)⟩

/-- Claim C9: on the spec's worked-example input, `wrangle_data` yields
exactly the rows for 2021-01-01, 2021-01-02 and 2021-01-03: the gap day
2021-01-02 is all zeros, the null `firstDose` of 2021-01-01 is coerced to
`0.0`, and 2021-01-03 has `beds = 12`. -/
theorem wrangle_worked_example :
    wrangle_data exampleRaw = Except.ok exampleTable ∧
    exampleTable.map Prod.fst =
      [dayNumber ⟨2021, 1, 1⟩, dayNumber ⟨2021, 1, 2⟩,
       dayNumber ⟨2021, 1, 3⟩] ∧
    tableLookup exampleTable (dayNumber ⟨2021, 1, 2⟩)
      = some ⟨some 0, some 0, some 0, some 0⟩ ∧
    (∃ row, tableLookup exampleTable (dayNumber ⟨2021, 1, 1⟩) = some row ∧
      row.firstDose = some 0) ∧
    (∃ row, tableLookup exampleTable (dayNumber ⟨2021, 1, 3⟩) = some row ∧
      row.beds = some 12) :=
  ⟨by rfl, by rfl, by rfl,
    ⟨⟨some 10, some 100, some 0, some 0⟩, by rfl, rfl⟩,
    ⟨⟨some 12, some 90, some 500, some 0⟩, by rfl, rfl⟩⟩
